import Mathlib

/-!
# Verification of the grid-scrape orchestration engine
# (src/scrape/scrape_restaurants.py)

Shallow embedding of the Manhattan restaurants scraper: grid generation over a
bounding box filtered by a boundary polygon, the tri-state on-disk result cache
(grid cells and place details), the per-cell search step, the per-entity detail
enrichment step, the merge/deduplication stage, and the search-radius
computation.

Modelling conventions:
* JSON values (what `json.load`/`json.dump` move to and from disk) are the
  inductive `Json`; a `dump` followed by a `load` of a JSON-representable value
  is the identity, so an on-disk file is modelled as the `Json` value it holds,
  `FileContent.corrupt` for a file whose read raises one of the exceptions the
  loaders catch (`json.JSONDecodeError` / `IOError`), or
  `FileContent.invalidUtf8` for a file whose bytes are not valid UTF-8: there
  `json.load` raises `UnicodeDecodeError` (a `ValueError` that is neither a
  `JSONDecodeError` nor an `OSError`), the `except` clause does not catch it,
  and it escapes the loader — so the loaders are `Except`-valued.
* Latitude/longitude degrees are `ℚ` (exact arithmetic); the meter-radius
  computation, which uses `math.sqrt`/`math.cos`, is modelled over `ℝ`.
* The external geometry library (shapely) is an external collaborator: a
  `BoundaryPolygon` is an oracle providing `contains`, `touches` and
  rectangle-`intersects` queries, exactly the three queries the code issues.
* The network provider is an oracle argument; an attempt on a cell yields a
  `FetchOutcome`: the pages accumulated so far plus how the attempt ended
  (success, HTTP 429 / RESOURCE_EXHAUSTED, or any other exception), matching
  the `try/except` structure of `search_by_type_async`.
* `async` orchestration is modelled as sequential state passing over the cache
  stores; each unit touches only its own cache key, so interleaving does not
  affect the per-key results.
-/

/-- A JSON value, as produced by `json.load`. -/
inductive Json where
  | null
  | bool (b : Bool)
  | num (q : ℚ)
  | str (s : String)
  | arr (elems : List Json)
  | obj (fields : List (String × Json))

namespace Json

mutual
/-- Structural equality test for JSON values. -/
def beq : Json → Json → Bool
  | .null, .null => true
  | .bool a, .bool b => a == b
  | .num a, .num b => a == b
  | .str a, .str b => a == b
  | .arr as, .arr bs => beqList as bs
  | .obj as, .obj bs => beqObj as bs
  | _, _ => false
/-- Structural equality test for JSON arrays. -/
def beqList : List Json → List Json → Bool
  | [], [] => true
  | a :: as, b :: bs => beq a b && beqList as bs
  | _, _ => false
/-- Structural equality test for JSON object field lists. -/
def beqObj : List (String × Json) → List (String × Json) → Bool
  | [], [] => true
  | (k1, v1) :: as, (k2, v2) :: bs => k1 == k2 && beq v1 v2 && beqObj as bs
  | _, _ => false
end

mutual
theorem eq_of_beq : ∀ {a b : Json}, beq a b = true → a = b
  | .null, .null, _ => rfl
  | .bool _, .bool _, h => by simp [beq] at h; simp [h]
  | .num _, .num _, h => by simp [beq] at h; simp [h]
  | .str _, .str _, h => by simp [beq] at h; simp [h]
  | .arr _, .arr _, h => by simp only [beq] at h; rw [eqList_of_beqList h]
  | .obj _, .obj _, h => by simp only [beq] at h; rw [eqObj_of_beqObj h]
theorem eqList_of_beqList : ∀ {as bs : List Json}, beqList as bs = true → as = bs
  | [], [], _ => rfl
  | _ :: _, _ :: _, h => by
      simp only [beqList, Bool.and_eq_true] at h
      rw [eq_of_beq h.1, eqList_of_beqList h.2]
theorem eqObj_of_beqObj :
    ∀ {as bs : List (String × Json)}, beqObj as bs = true → as = bs
  | [], [], _ => rfl
  | (_, _) :: _, (_, _) :: _, h => by
      simp only [beqObj, Bool.and_eq_true, beq_iff_eq] at h
      rw [h.1.1, eq_of_beq h.1.2, eqObj_of_beqObj h.2]
end

mutual
theorem beq_refl : ∀ a : Json, beq a a = true
  | .null => rfl
  | .bool _ => by simp [beq]
  | .num _ => by simp [beq]
  | .str _ => by simp [beq]
  | .arr as => by simp only [beq]; exact beqList_refl as
  | .obj as => by simp only [beq]; exact beqObj_refl as
theorem beqList_refl : ∀ as : List Json, beqList as as = true
  | [] => rfl
  | a :: as => by
      simp only [beqList, Bool.and_eq_true]
      exact ⟨beq_refl a, beqList_refl as⟩
theorem beqObj_refl : ∀ as : List (String × Json), beqObj as as = true
  | [] => rfl
  | (_, v) :: as => by
      simp only [beqObj, Bool.and_eq_true, beq_iff_eq]
      exact ⟨⟨trivial, beq_refl v⟩, beqObj_refl as⟩
end

instance : DecidableEq Json := fun a b =>
  if h : beq a b = true then .isTrue (eq_of_beq h)
  else .isFalse fun he => h (he ▸ beq_refl a)

/-- `d.get(k)` / `k in d` support: field lookup on a JSON object
(`none` when the value is not an object or the key is missing). -/
def get : Json → String → Option Json
  | .obj fields, k => (fields.find? fun kv => kv.1 == k).map (·.2)
  | _, _ => none

/-- Python truthiness of a JSON value (`if details:`, `if result.get(...)`). -/
def truthy : Json → Bool
  | .null => false
  | .bool b => b
  | .num q => q != 0
  | .str s => s ≠ ""
  | .arr as => as ≠ []
  | .obj fs => fs ≠ []

end Json

/-- One `d2`-entry step of Python `dict.update`: replace the value of an
existing equal key in place (keeping the stored key), else append. -/
def dictInsert (d : List (String × Json)) (k : String) (v : Json) :
    List (String × Json) :=
  if (d.find? fun kv => kv.1 == k).isSome then
    d.map fun kv => if kv.1 == k then (kv.1, v) else kv
  else d ++ [(k, v)]

/-- Python `d1.update(d2)` on string-keyed dicts. -/
def dictUpdate (d1 d2 : List (String × Json)) : List (String × Json) :=
  d2.foldl (fun acc kv => dictInsert acc kv.1 kv.2) d1

/-- `restaurant.update(details)`: merge a details field list into a JSON
object (the restaurant record is always a JSON object in the pipeline). -/
def jsonUpdate (r : Json) (details : List (String × Json)) : Json :=
  match r with
  | .obj fs => .obj (dictUpdate fs details)
  | other => other

/-! ## Grid geometry (`GridCell`, `point_in_manhattan`, `cell_overlaps_manhattan`,
`generate_grid_cells`) -/

/-- `GridCell`: a grid cell with bounding coordinates (degrees, exact). -/
structure GridCell where
  lat_low : ℚ
  lon_low : ℚ
  lat_high : ℚ
  lon_high : ℚ
  deriving DecidableEq

/-- A bounding box (the module-level `MANHATTAN_BOUNDS` dict). -/
structure Bounds where
  lat_low : ℚ
  lat_high : ℚ
  lon_low : ℚ
  lon_high : ℚ

/-- `GRID_SIZE = 250`. -/
def GRID_SIZE : ℕ := 250

/-- The module-level `MANHATTAN_BOUNDS` constant. -/
def MANHATTAN_BOUNDS : Bounds :=
  { lat_low := 40.7, lat_high := 40.88, lon_low := -74.05, lon_high := -73.9 }

/-- `MAX_REVIEWS = 10`. -/
def MAX_REVIEWS : ℕ := 10

/-- The boundary polygon, an external shapely object. The code issues exactly
three kinds of geometric queries against it, so it is embedded as an oracle
answering them: `contains (Point lon lat)`, `touches (Point lon lat)`, and
`cell_rectangle.intersects polygon`. -/
structure BoundaryPolygon where
  containsPt : ℚ → ℚ → Bool
  touchesPt : ℚ → ℚ → Bool
  intersectsRect : GridCell → Bool

/-- `point_in_manhattan`: `polygon.contains(point) or polygon.touches(point)`
with `point = Point(lon, lat)`. -/
def point_in_manhattan (poly : BoundaryPolygon) (lat lon : ℚ) : Bool :=
  poly.containsPt lon lat || poly.touchesPt lon lat

/-- `cell_overlaps_manhattan`: center in polygon, or any of the four corners
in polygon, or the cell rectangle intersects the polygon. -/
def cell_overlaps_manhattan (poly : BoundaryPolygon) (cell : GridCell) : Bool :=
  let center_lat := (cell.lat_low + cell.lat_high) / 2
  let center_lon := (cell.lon_low + cell.lon_high) / 2
  if point_in_manhattan poly center_lat center_lon then true
  else if (point_in_manhattan poly cell.lat_low cell.lon_low
      || point_in_manhattan poly cell.lat_low cell.lon_high
      || point_in_manhattan poly cell.lat_high cell.lon_low
      || point_in_manhattan poly cell.lat_high cell.lon_high) then true
  else poly.intersectsRect cell

/-- The cell constructed by `generate_grid_cells` at lattice position
`(i, j)` for bounding box `b` and linear resolution `n`. -/
def mkCell (b : Bounds) (n : ℕ) (i j : ℕ) : GridCell :=
  let lat_step := (b.lat_high - b.lat_low) / n
  let lon_step := (b.lon_high - b.lon_low) / n
  { lat_low := b.lat_low + i * lat_step
    lat_high := b.lat_low + (i + 1) * lat_step
    lon_low := b.lon_low + j * lon_step
    lon_high := b.lon_low + (j + 1) * lon_step }

/-- `generate_grid_cells`: the double loop over the `n × n` lattice, keeping
the cells that overlap the boundary polygon. The code closes over the
module-level polygon, bounds and `GRID_SIZE`; they are parameters here. -/
def generate_grid_cells (poly : BoundaryPolygon) (b : Bounds) (n : ℕ) :
    List GridCell :=
  (List.range n).flatMap fun i =>
    ((List.range n).map (mkCell b n i)).filter (cell_overlaps_manhattan poly)

/-- `generate_grid_cells` as actually invoked (module-level constants). -/
def generate_grid_cells_src (poly : BoundaryPolygon) : List GridCell :=
  generate_grid_cells poly MANHATTAN_BOUNDS GRID_SIZE

/-- A boundary polygon that is exactly a bounding-box rectangle: `contains`
holds on the open interior, `touches` on the border (shapely semantics), and
a cell rectangle intersects it iff the closed rectangles meet. -/
def boxPolygon (b : Bounds) : BoundaryPolygon where
  containsPt := fun lon lat =>
    decide (b.lat_low < lat ∧ lat < b.lat_high ∧ b.lon_low < lon ∧ lon < b.lon_high)
  touchesPt := fun lon lat =>
    decide ((b.lat_low ≤ lat ∧ lat ≤ b.lat_high ∧ b.lon_low ≤ lon ∧ lon ≤ b.lon_high)
      ∧ ¬(b.lat_low < lat ∧ lat < b.lat_high ∧ b.lon_low < lon ∧ lon < b.lon_high))
  intersectsRect := fun cell =>
    decide (cell.lat_low ≤ b.lat_high ∧ b.lat_low ≤ cell.lat_high
      ∧ cell.lon_low ≤ b.lon_high ∧ b.lon_low ≤ cell.lon_high)

/-! ## The on-disk caches (`load_grid_cache` / `save_grid_cache`,
`load_details_cache` / `save_details_cache`) -/

/-- The content of one cache file: a JSON document; a file whose read
raises `json.JSONDecodeError` (malformed JSON text) or `IOError`
(unreadable) — exceptions the loaders catch; or a file whose bytes are not
valid UTF-8, where `json.load` on a file opened with `encoding='utf-8'`
raises `UnicodeDecodeError` — an exception the loaders' `except
(json.JSONDecodeError, IOError)` clause does NOT catch. -/
inductive FileContent where
  | corrupt
  | invalidUtf8
  | json (j : Json)
  deriving DecidableEq

/-- The `UnicodeDecodeError` that escapes the loaders when a cache file's
bytes are not valid UTF-8 (it subclasses `ValueError`, not
`json.JSONDecodeError`, and is not an `IOError`). -/
inductive UnicodeDecodeError where
  | mk
  deriving DecidableEq

/-- The grid-cache directory: one optional file per cell. (`cache_filename`
is built from the four bounds, so distinct cells use distinct files; the
store is keyed by the cell itself.) -/
def GridStore : Type := GridCell → Option FileContent

/-- The details-cache directory: one optional file per place id. The id is
the JSON value stored under the entity's `"id"` key. -/
def DetailStore : Type := Json → Option FileContent

/-- `load_grid_cache`: `None` if the file does not exist or raises one of
the caught exceptions; otherwise the parsed list, or `[]` when the parsed
JSON is not a list. A file of invalid UTF-8 bytes raises
`UnicodeDecodeError` out of the loader (the `except` clause misses it). -/
def load_grid_cache (s : GridStore) (cell : GridCell) :
    Except UnicodeDecodeError (Option (List Json)) :=
  match s cell with
  | none => .ok none
  | some .corrupt => .ok none
  | some .invalidUtf8 => .error .mk
  | some (.json j) =>
      match j with
      | .arr elems => .ok (some elems)
      | _ => .ok (some [])

/-- `save_grid_cache`: write the result list (even if empty) to the cell's
cache file. -/
def save_grid_cache (s : GridStore) (cell : GridCell) (results : List Json) :
    GridStore :=
  fun c => if c = cell then some (.json (.arr results)) else s c

/-- The `{"_empty": true}` marker written by `save_details_cache` for `None`. -/
def emptyMarker : Json := .obj [("_empty", .bool true)]

/-- `load_details_cache`: `None` if the file does not exist or raises one
of the caught exceptions; `{}` for the `{"_empty": true}` marker; otherwise
the parsed dict (its field list), or `{}` when the parsed JSON is not a
dict. A file of invalid UTF-8 bytes raises `UnicodeDecodeError` out of the
loader (the `except` clause misses it). -/
def load_details_cache (s : DetailStore) (place_id : Json) :
    Except UnicodeDecodeError (Option (List (String × Json))) :=
  match s place_id with
  | none => .ok none
  | some .corrupt => .ok none
  | some .invalidUtf8 => .error .mk
  | some (.json j) =>
      if j = emptyMarker then .ok (some [])
      else
        match j with
        | .obj fields => .ok (some fields)
        | _ => .ok (some [])

/-- `save_details_cache`: write the details dict, or the `{"_empty": true}`
marker when the details are `None`. -/
def save_details_cache (s : DetailStore) (place_id : Json)
    (details : Option (List (String × Json))) : DetailStore :=
  fun p =>
    if p = place_id then
      some (.json (match details with
        | some fields => .obj fields
        | none => emptyMarker))
    else s p

/-! ## The per-cell search attempt (`search_by_type_async`, `process_cell_async`) -/

/-- How one attempt at `search_by_type_async`'s `try` block ends. Each case
carries the (converted, website-filtered) results accumulated into
`all_results` before the attempt ended; a failure before any page completes
carries `[]`. -/
inductive FetchOutcome where
  | ok (results : List Json)
  | rateLimited (partial_results : List Json)
  | otherError (partial_results : List Json)

/-- `search_by_type_async`, given the outcome of its network interaction:
on success return all results; on a 429/RESOURCE_EXHAUSTED error sleep
`SLEEP_TIME` and fall through; on any other error log and fall through.
All three paths `return all_results` — the accumulated list. -/
def search_by_type (outcome : FetchOutcome) : List Json :=
  match outcome with
  | .ok results => results
  | .rateLimited partial_results => partial_results
  | .otherError partial_results => partial_results

/-- Result of `process_cell_async`: `(results, from_cache, made_api_call)`
plus the grid store after the call (the cache-file write effect). -/
structure CellOutcome where
  results : List Json
  fromCache : Bool
  usedApi : Bool
  store : GridStore

/-- `process_cell_async`: return cached results when the cache file exists
(even an empty one); otherwise run the search and always save the outcome
to the cache, even if empty. `provider` gives the network outcome the
attempt on each cell would see. A `UnicodeDecodeError` escaping the loader
propagates out of the task (no handler here either). -/
def process_cell (provider : GridCell → FetchOutcome) (s : GridStore)
    (cell : GridCell) : Except UnicodeDecodeError CellOutcome :=
  match load_grid_cache s cell with
  | .error e => .error e
  | .ok (some cached) =>
      .ok { results := cached, fromCache := true, usedApi := false, store := s }
  | .ok none =>
      let results := search_by_type (provider cell)
      .ok { results := results, fromCache := false, usedApi := true
            store := save_grid_cache s cell results }

/-- Phase 1 over a list of cells: thread the grid store through
`process_cell`, collecting each cell's result list and counting API calls
(the `api_calls` counter of `scrape_grid_cells_async`). An uncaught
`UnicodeDecodeError` from any cell aborts the phase (the exception re-raises
at `await coro` and nothing above handles it). -/
def run_phase1 (provider : GridCell → FetchOutcome) :
    List GridCell → GridStore →
      Except UnicodeDecodeError (List (List Json) × ℕ × GridStore)
  | [], s => .ok ([], 0, s)
  | cell :: rest, s =>
      match process_cell provider s cell with
      | .error e => .error e
      | .ok out =>
          match run_phase1 provider rest out.store with
          | .error e => .error e
          | .ok r =>
              .ok (out.results :: r.1,
                (if out.usedApi then 1 else 0) + r.2.1, r.2.2)

/-! ## The detail fetch (`get_place_details_async`) -/

/-- A localized text value from the provider SDK. -/
structure LocalizedTextR where
  text : String
  language_code : String
  deriving DecidableEq

/-- One review from the provider detail response. `publish_time` is the
protobuf timestamp's `seconds` field when present. -/
structure ReviewR where
  rating : Option ℚ
  text : Option LocalizedTextR
  author_name : Option String
  author_uri : Option String
  author_photo_uri : Option String
  publish_time : Option ℤ
  deriving DecidableEq

/-- `get_publish_time`: the sort key — the timestamp's seconds, 0 when the
review has no publish time. -/
def get_publish_time (r : ReviewR) : ℤ :=
  r.publish_time.getD 0

/-- The generative summary part of a detail response. -/
structure GenSummaryR where
  overview : Option LocalizedTextR
  description : Option LocalizedTextR

/-- The review summary part of a detail response. -/
structure ReviewSummaryR where
  text : Option LocalizedTextR
  reviews_uri : Option String
  disclosure_text : Option LocalizedTextR

/-- The provider's detail response (field-mask
`id,displayName,reviews,generativeSummary,reviewSummary`). An absent or
empty `reviews` attribute is the empty list. -/
structure DetailsResponse where
  reviews : List ReviewR
  generative_summary : Option GenSummaryR
  review_summary : Option ReviewSummaryR

/-- The review list sorted by publish time, most recent first
(`sorted(response.reviews, key=get_publish_time, reverse=True)`;
Python's `sorted` and `List.mergeSort` are both stable). -/
def sortReviews (reviews : List ReviewR) : List ReviewR :=
  reviews.mergeSort fun a b => get_publish_time b ≤ get_publish_time a

/-- The reviews kept by `get_place_details_async`:
`sorted_reviews[:MAX_REVIEWS]`. -/
def selectReviews (reviews : List ReviewR) : List ReviewR :=
  (sortReviews reviews).take MAX_REVIEWS

/-- A localized text as serialized into a review/summary dict. -/
def localizedTextJson (t : LocalizedTextR) : Json :=
  .obj [("text", .str t.text), ("languageCode", .str t.language_code)]

/-- The per-review dict built inside `get_place_details_async`. The ISO-8601
rendering of the timestamp (`datetime.fromtimestamp(...).isoformat()`) is
abstracted to an opaque string of the seconds value; no claim inspects it. -/
def reviewToJson (r : ReviewR) : Json :=
  .obj ((match r.rating with
      | some q => [("rating", Json.num q)]
      | none => [])
    ++ (match r.text with
      | some t => [("text", localizedTextJson t)]
      | none => [])
    ++ (match r.author_name, r.author_uri, r.author_photo_uri with
      | none, none, none => []
      | n, u, p =>
          [("authorAttribution", Json.obj
            [("displayName", (n.map Json.str).getD .null),
             ("uri", (u.map Json.str).getD .null),
             ("photoUri", (p.map Json.str).getD .null)])])
    ++ (match r.publish_time with
      | some t => [("publishTime", Json.str (toString t))]
      | none => []))

/-- The `generativeSummary` dict. -/
def genSummaryJson (g : GenSummaryR) : Json :=
  .obj ((match g.overview with
      | some t => [("overview", localizedTextJson t)]
      | none => [])
    ++ (match g.description with
      | some t => [("description", localizedTextJson t)]
      | none => []))

/-- The `reviewSummary` dict. -/
def reviewSummaryJson (rs : ReviewSummaryR) : Json :=
  .obj [("text", (rs.text.map localizedTextJson).getD .null),
        ("reviewsUri", (rs.reviews_uri.map Json.str).getD .null),
        ("disclosureText", (rs.disclosure_text.map localizedTextJson).getD .null)]

/-- The field list of the `details` dict assembled by
`get_place_details_async` from a successfully fetched response: at most the
keys `reviews`, `generativeSummary` and `reviewSummary`, each present only
when the corresponding response part is present/non-empty. -/
def build_details_fields (resp : DetailsResponse) : List (String × Json) :=
  (if resp.reviews ≠ [] then
      [("reviews", Json.arr ((selectReviews resp.reviews).map reviewToJson))]
    else [])
  ++ (match resp.generative_summary with
    | some g => [("generativeSummary", genSummaryJson g)]
    | none => [])
  ++ (match resp.review_summary with
    | some rs => [("reviewSummary", reviewSummaryJson rs)]
    | none => [])

/-- The `details` value returned by `get_place_details_async` on a
successful fetch: `None` when the dict is empty
(`return details if details else None`). -/
def build_details (resp : DetailsResponse) : Option (List (String × Json)) :=
  if build_details_fields resp = [] then none else some (build_details_fields resp)

/-- `get_place_details_async`: a successful fetch yields `build_details` of
the response; a rate-limit or any other provider error is caught and yields
`None`. The provider oracle returns `none` for a failed fetch. -/
def get_place_details (dprovider : Json → Option DetailsResponse)
    (place_id : Json) : Option (List (String × Json)) :=
  match dprovider place_id with
  | none => none
  | some resp => build_details resp

/-! ## Enrichment (`enrich_restaurant_async`) and aggregation
(`scrape_grid_cells_async` merge loop) -/

/-- Result of `enrich_restaurant_async` on one restaurant: the (possibly
updated) restaurant record, `(from_cache, made_api_call)`, and the detail
store after the call. -/
structure EnrichOutcome where
  restaurant : Json
  fromCache : Bool
  usedApi : Bool
  store : DetailStore

/-- `enrich_restaurant_async`: use the cached details when the cache file
exists (updating the record only when the cached dict is truthy); otherwise
fetch, always save (even `None`), and update the record when the fetched
details are truthy. A `UnicodeDecodeError` escaping the loader propagates
out of the task. -/
def enrich_restaurant (dprovider : Json → Option DetailsResponse)
    (s : DetailStore) (place_id : Json) (restaurant : Json) :
    Except UnicodeDecodeError EnrichOutcome :=
  match load_details_cache s place_id with
  | .error e => .error e
  | .ok (some cached) =>
      .ok { restaurant := if cached ≠ [] then jsonUpdate restaurant cached
              else restaurant
            fromCache := true, usedApi := false, store := s }
  | .ok none =>
      let details := get_place_details dprovider place_id
      let s' := save_details_cache s place_id details
      match details with
      | some d =>
          .ok { restaurant := if d ≠ [] then jsonUpdate restaurant d
                  else restaurant
                fromCache := false, usedApi := true, store := s' }
      | none =>
          .ok { restaurant := restaurant, fromCache := false, usedApi := true
                store := s' }

/-- Phase 2 over the aggregated `(place_id, restaurant)` map entries:
thread the detail store through `enrich_restaurant`, counting API calls. An
uncaught `UnicodeDecodeError` from any entry aborts the phase. -/
def enrich_all (dprovider : Json → Option DetailsResponse) :
    List (Json × Json) → DetailStore →
      Except UnicodeDecodeError (List (Json × Json) × ℕ × DetailStore)
  | [], s => .ok ([], 0, s)
  | (place_id, restaurant) :: rest, s =>
      match enrich_restaurant dprovider s place_id restaurant with
      | .error e => .error e
      | .ok out =>
          match enrich_all dprovider rest out.store with
          | .error e => .error e
          | .ok r =>
              .ok ((place_id, out.restaurant) :: r.1,
                (if out.usedApi then 1 else 0) + r.2.1, r.2.2)

/-- Whether the merge loop inserts a result:
`'id' in result` and `result.get('websiteUri') or result.get('website_uri')`
is truthy. -/
def mergeEligible (r : Json) : Bool :=
  (r.get "id").isSome
    && (((r.get "websiteUri").map Json.truthy).getD false
      || ((r.get "website_uri").map Json.truthy).getD false)

/-- `all_restaurants[result['id']] = result` on the Python dict modelled as
an association list: replace the value of the first entry with an equal key
(CPython keeps the originally inserted key object), else append. -/
def mapInsert (m : List (Json × Json)) (k : Json) (v : Json) :
    List (Json × Json) :=
  if (m.find? fun kv => kv.1 = k).isSome then
    m.map fun kv => if kv.1 = k then (kv.1, v) else kv
  else m ++ [(k, v)]

/-- Dict lookup on the aggregated map. -/
def mapLookup (m : List (Json × Json)) (k : Json) : Option Json :=
  (m.find? fun kv => kv.1 = k).map (·.2)

/-- One iteration of the aggregation loop of `scrape_grid_cells_async`:
`if 'id' in result: if result.get('websiteUri') or result.get('website_uri'):
all_restaurants[result['id']] = result`. -/
def mergeStep (m : List (Json × Json)) (r : Json) : List (Json × Json) :=
  match r.get "id" with
  | some k => if mergeEligible r then mapInsert m k r else m
  | none => m

/-- The aggregation loop of `scrape_grid_cells_async`: iterate all cell
result lists in order and insert each eligible result keyed by its `id`
(last writer wins). -/
def merge (results_list : List (List Json)) : List (Json × Json) :=
  results_list.foldl (fun m results => results.foldl mergeStep m) []

/-- The full pipeline of `main_async`: phase-1 grid search over the cells,
merge, then phase-2 enrichment. Returns the final entity map, the two API
call counters, and the two stores — or the uncaught `UnicodeDecodeError`
that aborted the run. -/
def pipeline (provider : GridCell → FetchOutcome)
    (dprovider : Json → Option DetailsResponse) (cells : List GridCell)
    (gs : GridStore) (ds : DetailStore) :
    Except UnicodeDecodeError
      (List (Json × Json) × (ℕ × ℕ) × GridStore × DetailStore) :=
  match run_phase1 provider cells gs with
  | .error e => .error e
  | .ok r1 =>
      match enrich_all dprovider (merge r1.1) ds with
      | .error e => .error e
      | .ok r2 => .ok (r2.1, (r1.2.1, r2.2.1), r1.2.2, r2.2.2)

/-! ## The search radius computation (`search_by_type_async`, lines 342–357) -/

noncomputable section

open Real in
/-- The meter radius computed by `search_by_type_async` for a cell:
degree spans scaled by 111000 m/degree (longitude corrected by
`cos(radians(center_lat))`), the full diagonal plus a 100 m buffer,
truncated to an integer and capped at 50 km. -/
def radius_meters (cell : GridCell) : ℤ :=
  let center_lat : ℝ := ((cell.lat_low : ℝ) + (cell.lat_high : ℝ)) / 2
  let lat_diff : ℝ := (cell.lat_high : ℝ) - (cell.lat_low : ℝ)
  let lon_diff : ℝ := (cell.lon_high : ℝ) - (cell.lon_low : ℝ)
  let lat_meters := lat_diff * 111000
  let lon_meters := lon_diff * 111000 * Real.cos (center_lat * π / 180)
  let cell_diagonal := Real.sqrt (lat_meters ^ 2 + lon_meters ^ 2)
  min ⌊cell_diagonal + 100⌋ 50000

open Real in
/-- The exact diagonal length of a cell in meters, under the same
degree-to-meter conversion the code uses. -/
def diagonal_meters (cell : GridCell) : ℝ :=
  let center_lat : ℝ := ((cell.lat_low : ℝ) + (cell.lat_high : ℝ)) / 2
  let lat_meters := ((cell.lat_high : ℝ) - (cell.lat_low : ℝ)) * 111000
  let lon_meters := ((cell.lon_high : ℝ) - (cell.lon_low : ℝ)) * 111000
    * Real.cos (center_lat * π / 180)
  Real.sqrt (lat_meters ^ 2 + lon_meters ^ 2)

end

/-! ## Cache round-trip lemmas -/

theorem load_grid_cache_save (s : GridStore) (cell : GridCell)
    (results : List Json) :
    load_grid_cache (save_grid_cache s cell results) cell
      = .ok (some results) := by
  simp [load_grid_cache, save_grid_cache]

theorem load_grid_cache_save_other (s : GridStore) (cell c : GridCell)
    (results : List Json) (h : c ≠ cell) :
    load_grid_cache (save_grid_cache s cell results) c = load_grid_cache s c := by
  simp [load_grid_cache, save_grid_cache, h]

theorem load_details_cache_save_some (s : DetailStore) (pid : Json)
    (fields : List (String × Json)) (h : Json.obj fields ≠ emptyMarker) :
    load_details_cache (save_details_cache s pid (some fields)) pid
      = .ok (some fields) := by
  simp [load_details_cache, save_details_cache, h]

theorem load_details_cache_save_none (s : DetailStore) (pid : Json) :
    load_details_cache (save_details_cache s pid none) pid
      = .ok (some []) := by
  simp [load_details_cache, save_details_cache, emptyMarker]

theorem load_details_cache_save_other (s : DetailStore) (pid p : Json)
    (d : Option (List (String × Json))) (h : p ≠ pid) :
    load_details_cache (save_details_cache s pid d) p
      = load_details_cache s p := by
  simp [load_details_cache, save_details_cache, h]

/-- C1: the claim says that after a cell search attempt failing with a
rate-limit signal or any other provider error (no successful fetch), the
grid cache entry for the cell remains Absent so a future run retries it.
The code violates this: `search_by_type_async` swallows the exception and
returns the (empty) accumulated list, and `process_cell_async`
unconditionally saves it, writing an Empty (`[]`) record. Evaluated here at
a concrete cell with an initially empty cache, for both error kinds: the
attempt completes (no exception) and the cache entry afterwards is
`some []` (Empty), not `none` (Absent). -/
theorem process_cell_failed_attempt_writes_empty_record :
    (∃ out, process_cell (fun _ => .otherError []) (fun _ => none)
        ⟨40, -74, 41, -73⟩ = .ok out
      ∧ load_grid_cache out.store ⟨40, -74, 41, -73⟩ = .ok (some []))
  ∧ (∃ out, process_cell (fun _ => .rateLimited []) (fun _ => none)
        ⟨40, -74, 41, -73⟩ = .ok out
      ∧ load_grid_cache out.store ⟨40, -74, 41, -73⟩ = .ok (some [])) := by
  refine ⟨⟨_, rfl, ?_⟩, ⟨_, rfl, ?_⟩⟩ <;> exact load_grid_cache_save _ _ _

/-- C2: tri-state cache round-trip. Grid cells: `get` after `put(payload)`
returns exactly the payload, and `put([])` yields Empty (`some []`), never
Absent. Details: `put` of a (non-marker) details dict round-trips exactly,
and `put(None)` — the explicit empty marker — yields Empty with zero
fields (`some []`), never Absent. -/
theorem cache_get_after_put_tristate :
    (∀ (s : GridStore) (cell : GridCell) (results : List Json),
      load_grid_cache (save_grid_cache s cell results) cell
        = .ok (some results))
  ∧ (∀ (s : GridStore) (cell : GridCell),
      load_grid_cache (save_grid_cache s cell []) cell = .ok (some []))
  ∧ (∀ (s : DetailStore) (pid : Json) (fields : List (String × Json)),
      Json.obj fields ≠ emptyMarker →
      load_details_cache (save_details_cache s pid (some fields)) pid
        = .ok (some fields))
  ∧ (∀ (s : DetailStore) (pid : Json),
      load_details_cache (save_details_cache s pid none) pid
        = .ok (some [])) :=
  ⟨load_grid_cache_save, fun s cell => load_grid_cache_save s cell [],
   load_details_cache_save_some, load_details_cache_save_none⟩

/-- Witness for C2 at concrete inputs; the payload `{"reviews": []}` is a
non-empty dict distinct from the empty marker. -/
theorem cache_get_after_put_tristate_witness :
    Json.obj [("reviews", Json.arr [])] ≠ emptyMarker
  ∧ load_details_cache
      (save_details_cache (fun _ => none) (.str "p1")
        (some [("reviews", Json.arr [])])) (.str "p1")
      = .ok (some [("reviews", Json.arr [])])
  ∧ load_grid_cache
      (save_grid_cache (fun _ => none) ⟨0, 0, 1, 1⟩ [Json.str "r"])
      ⟨0, 0, 1, 1⟩ = .ok (some [Json.str "r"])
  ∧ load_details_cache (save_details_cache (fun _ => none) (.str "p2") none)
      (.str "p2") = .ok (some []) :=
  ⟨by decide,
   cache_get_after_put_tristate.2.2.1 _ _ _ (by decide),
   cache_get_after_put_tristate.1 _ _ _,
   cache_get_after_put_tristate.2.2.2 _ _⟩

/-- C9: the claim says a malformed cache record — undecodable, or failing
on read — degrades to Absent and no exception escapes the loader, so a
single bad cache entry never aborts the run. That holds only for the
exceptions the `except (json.JSONDecodeError, IOError)` clause catches
(malformed JSON text / unreadable file → Absent, first two conjuncts). It
is FALSE for a cache file whose bytes are not valid UTF-8: `json.load` on
the `encoding='utf-8'` handle raises `UnicodeDecodeError`, which is neither
a `JSONDecodeError` nor an `IOError`, so it escapes the loader (third and
fourth conjuncts), propagates through the unguarded cell/enrichment task
(fifth and sixth conjuncts), and aborts the run. -/
theorem invalid_utf8_cache_record_raises :
    load_grid_cache (fun _ => some .corrupt) ⟨0, 0, 1, 1⟩ = .ok none
  ∧ load_details_cache (fun _ => some .corrupt) (.str "p1") = .ok none
  ∧ load_grid_cache (fun _ => some .invalidUtf8) ⟨0, 0, 1, 1⟩ = .error .mk
  ∧ load_details_cache (fun _ => some .invalidUtf8) (.str "p1") = .error .mk
  ∧ process_cell (fun _ => .ok []) (fun _ => some .invalidUtf8) ⟨0, 0, 1, 1⟩
      = .error .mk
  ∧ enrich_restaurant (fun _ => none) (fun _ => some .invalidUtf8)
      (.str "p1") (.obj []) = .error .mk :=
  ⟨rfl, rfl, rfl, rfl, rfl, rfl⟩

/-! ## Grid coverage lemmas -/

theorem boxPolygon_containsPt (b : Bounds) (lat lon : ℚ)
    (h1 : b.lat_low < lat) (h2 : lat < b.lat_high)
    (h3 : b.lon_low < lon) (h4 : lon < b.lon_high) :
    (boxPolygon b).containsPt lon lat = true := by
  simp only [boxPolygon, decide_eq_true_eq]
  exact ⟨h1, h2, h3, h4⟩

theorem point_in_manhattan_box (b : Bounds) (lat lon : ℚ)
    (h1 : b.lat_low < lat) (h2 : lat < b.lat_high)
    (h3 : b.lon_low < lon) (h4 : lon < b.lon_high) :
    point_in_manhattan (boxPolygon b) lat lon = true := by
  unfold point_in_manhattan
  rw [boxPolygon_containsPt b lat lon h1 h2 h3 h4, Bool.true_or]

theorem cell_overlaps_of_center (poly : BoundaryPolygon) (cell : GridCell)
    (h : point_in_manhattan poly ((cell.lat_low + cell.lat_high) / 2)
      ((cell.lon_low + cell.lon_high) / 2) = true) :
    cell_overlaps_manhattan poly cell = true := by
  unfold cell_overlaps_manhattan
  simp [h]

theorem cell_overlaps_box (b : Bounds) (n i j : ℕ) (hi : i < n) (hj : j < n)
    (hlat : b.lat_low < b.lat_high) (hlon : b.lon_low < b.lon_high) :
    cell_overlaps_manhattan (boxPolygon b) (mkCell b n i j) = true := by
  have hn0 : 0 < n := Nat.lt_of_le_of_lt (Nat.zero_le i) hi
  have hn : (0 : ℚ) < n := by exact_mod_cast hn0
  have hdlat : 0 < (b.lat_high - b.lat_low) / (n : ℚ) :=
    div_pos (by linarith) hn
  have hdlon : 0 < (b.lon_high - b.lon_low) / (n : ℚ) :=
    div_pos (by linarith) hn
  have hnlat : (n : ℚ) * ((b.lat_high - b.lat_low) / (n : ℚ))
      = b.lat_high - b.lat_low := by field_simp
  have hnlon : (n : ℚ) * ((b.lon_high - b.lon_low) / (n : ℚ))
      = b.lon_high - b.lon_low := by field_simp
  have h2i : (2 * (i : ℚ) + 1) < 2 * (n : ℚ) := by
    exact_mod_cast (by omega : 2 * i + 1 < 2 * n)
  have h2j : (2 * (j : ℚ) + 1) < 2 * (n : ℚ) := by
    exact_mod_cast (by omega : 2 * j + 1 < 2 * n)
  have h2i0 : (0 : ℚ) < 2 * (i : ℚ) + 1 := by positivity
  have h2j0 : (0 : ℚ) < 2 * (j : ℚ) + 1 := by positivity
  apply cell_overlaps_of_center
  apply point_in_manhattan_box <;> simp only [mkCell]
  · nlinarith [mul_pos h2i0 hdlat]
  · nlinarith [mul_pos (show (0 : ℚ) < 2 * (n : ℚ) - (2 * (i : ℚ) + 1) by
      linarith) hdlat, hnlat]
  · nlinarith [mul_pos h2j0 hdlon]
  · nlinarith [mul_pos (show (0 : ℚ) < 2 * (n : ℚ) - (2 * (j : ℚ) + 1) by
      linarith) hdlon, hnlon]

/-- C4: for a boundary polygon exactly equal to the bounding box, grid
generation at linear resolution `n` includes all `n²` lattice cells: the
overlap filter removes nothing, because every cell's center lies strictly
inside the box. -/
theorem box_boundary_grid_has_all_cells (b : Bounds) (n : ℕ)
    (hlat : b.lat_low < b.lat_high) (hlon : b.lon_low < b.lon_high) :
    (generate_grid_cells (boxPolygon b) b n).length = n * n := by
  unfold generate_grid_cells
  have hfilter : ∀ i ∈ List.range n,
      ((List.range n).map (mkCell b n i)).filter
        (cell_overlaps_manhattan (boxPolygon b))
      = (List.range n).map (mkCell b n i) := by
    intro i hi
    rw [List.filter_eq_self]
    intro c hc
    rw [List.mem_map] at hc
    obtain ⟨j, hj, rfl⟩ := hc
    exact cell_overlaps_box b n i j (List.mem_range.mp hi)
      (List.mem_range.mp hj) hlat hlon
  rw [List.flatMap_congr hfilter]
  simp [List.length_flatMap, Function.comp_def]

/-- Witness for C4 at resolutions 1 and 2 on the unit square. -/
theorem box_boundary_grid_has_all_cells_witness :
    (0 : ℚ) < 1
  ∧ (generate_grid_cells (boxPolygon ⟨0, 1, 0, 1⟩) ⟨0, 1, 0, 1⟩ 1).length = 1 * 1
  ∧ (generate_grid_cells (boxPolygon ⟨0, 1, 0, 1⟩) ⟨0, 1, 0, 1⟩ 2).length = 2 * 2 :=
  ⟨by norm_num,
   box_boundary_grid_has_all_cells ⟨0, 1, 0, 1⟩ 1 (by norm_num) (by norm_num),
   box_boundary_grid_has_all_cells ⟨0, 1, 0, 1⟩ 2 (by norm_num) (by norm_num)⟩

/-- C5: every lattice cell whose rectangle geometrically intersects the
boundary polygon is included in the generated cell list — the intersection
test is the final disjunct of `cell_overlaps_manhattan`, so inclusion holds
even when neither the center nor any corner lies in or on the polygon. -/
theorem intersecting_cell_included (poly : BoundaryPolygon) (b : Bounds)
    (n i j : ℕ) (hi : i < n) (hj : j < n)
    (hint : poly.intersectsRect (mkCell b n i j) = true) :
    mkCell b n i j ∈ generate_grid_cells poly b n := by
  unfold generate_grid_cells
  rw [List.mem_flatMap]
  refine ⟨i, List.mem_range.mpr hi, ?_⟩
  rw [List.mem_filter]
  refine ⟨List.mem_map_of_mem _ (List.mem_range.mpr hj), ?_⟩
  simp [cell_overlaps_manhattan, hint]

/-- Witness for C5: a thin-sliver oracle polygon containing no grid point at
all (contains/touches always false) whose rectangle-intersection test hits
the single cell; the cell is still generated. -/
theorem intersecting_cell_included_witness :
    (⟨fun _ _ => false, fun _ _ => false, fun _ => true⟩
        : BoundaryPolygon).intersectsRect (mkCell ⟨0, 1, 0, 1⟩ 1 0 0) = true
  ∧ mkCell ⟨0, 1, 0, 1⟩ 1 0 0 ∈
      generate_grid_cells
        ⟨fun _ _ => false, fun _ _ => false, fun _ => true⟩ ⟨0, 1, 0, 1⟩ 1 :=
  ⟨rfl, intersecting_cell_included _ _ 1 0 0 (by decide) (by decide) rfl⟩

/-! ## Review truncation lemmas -/

/-- The sorted review list is strictly descending in publish time when all
publish times are pairwise distinct. -/
theorem sortReviews_strict_desc (reviews : List ReviewR)
    (h : (reviews.map get_publish_time).Nodup) :
    List.Pairwise (fun a b => get_publish_time b < get_publish_time a)
      (sortReviews reviews) := by
  have hsorted : List.Pairwise
      (fun a b : ReviewR => get_publish_time b ≤ get_publish_time a)
      (sortReviews reviews) := by
    have := @List.sorted_mergeSort ReviewR
      (fun a b : ReviewR => decide (get_publish_time b ≤ get_publish_time a))
      (fun a b c hab hbc => by
        simp only [decide_eq_true_eq] at *; exact le_trans hbc hab)
      (fun a b => by
        simp only [Bool.or_eq_true, decide_eq_true_eq]; exact le_total _ _)
      reviews
    exact this.imp (by simp only [decide_eq_true_eq]; exact fun h => h)
  have hperm : ((sortReviews reviews).map get_publish_time).Perm
      (reviews.map get_publish_time) :=
    (List.mergeSort_perm reviews _).map get_publish_time
  have hnd : ((sortReviews reviews).map get_publish_time).Nodup :=
    hperm.symm.nodup h
  have hne : List.Pairwise
      (fun a b : ReviewR => get_publish_time a ≠ get_publish_time b)
      (sortReviews reviews) := List.pairwise_map.mp hnd
  exact (hsorted.and hne).imp fun hab => lt_of_le_of_ne hab.1 (Ne.symm hab.2)

/-- C7: with pairwise-distinct publish times, the detail step keeps exactly
`min n MAX_REVIEWS` reviews; they are strictly descending by publish time;
together with the dropped reviews they are a permutation of the input; and
every kept review is strictly more recent than every dropped one. The
serialized `"reviews"` array has the same length. -/
theorem reviews_truncated_to_most_recent (reviews : List ReviewR)
    (h : (reviews.map get_publish_time).Nodup) :
    (selectReviews reviews).length = min reviews.length MAX_REVIEWS
  ∧ List.Pairwise (fun a b => get_publish_time b < get_publish_time a)
      (selectReviews reviews)
  ∧ (selectReviews reviews ++ (sortReviews reviews).drop MAX_REVIEWS).Perm
      reviews
  ∧ (∀ a ∈ selectReviews reviews, ∀ b ∈ (sortReviews reviews).drop MAX_REVIEWS,
      get_publish_time b < get_publish_time a)
  ∧ ((selectReviews reviews).map reviewToJson).length
      = min reviews.length MAX_REVIEWS := by
  have hstrict := sortReviews_strict_desc reviews h
  have hlen : (selectReviews reviews).length = min reviews.length MAX_REVIEWS := by
    simp [selectReviews, sortReviews, List.length_take, List.length_mergeSort,
      Nat.min_comm]
  refine ⟨hlen, ?_, ?_, ?_, ?_⟩
  · exact hstrict.sublist (List.take_sublist _ _)
  · unfold selectReviews
    rw [List.take_append_drop]
    exact List.mergeSort_perm reviews _
  · have hsplit := (List.take_append_drop MAX_REVIEWS (sortReviews reviews)).symm ▸ hstrict
    exact fun a ha b hb => (List.pairwise_append.mp hsplit).2.2 a ha b hb
  · rw [List.length_map]; exact hlen

/-- Witness for C7: three concrete reviews with distinct publish times. -/
theorem reviews_truncated_to_most_recent_witness :
    (([⟨none, none, none, none, none, some 5⟩,
       ⟨none, none, none, none, none, some 9⟩,
       ⟨none, none, none, none, none, some 1⟩] : List ReviewR).map
        get_publish_time).Nodup
  ∧ (selectReviews
      [⟨none, none, none, none, none, some 5⟩,
       ⟨none, none, none, none, none, some 9⟩,
       ⟨none, none, none, none, none, some 1⟩]).length
      = min 3 MAX_REVIEWS :=
  ⟨by decide,
   (reviews_truncated_to_most_recent _ (by decide)).1⟩

/-! ## Radius computation at the claim's cell: 0.01° × 0.01° at the equator -/

theorem diagonal_meters_equator_cell :
    diagonal_meters ⟨-1/200, -1/200, 1/200, 1/200⟩ = Real.sqrt 2464200 := by
  unfold diagonal_meters
  norm_num

theorem sqrt_diag_lb : (1569 : ℝ) ≤ Real.sqrt 2464200 :=
  (Real.le_sqrt (by norm_num) (by norm_num)).mpr (by norm_num)

theorem sqrt_diag_ub : Real.sqrt 2464200 < 1570 :=
  (Real.sqrt_lt' (by norm_num)).mpr (by norm_num)

theorem radius_meters_equator_cell :
    radius_meters ⟨-1/200, -1/200, 1/200, 1/200⟩ = 1669 := by
  have hfloor : ⌊Real.sqrt 2464200 + (100 : ℝ)⌋ = 1669 := by
    rw [Int.floor_eq_iff]
    constructor
    · push_cast; linarith [sqrt_diag_lb]
    · push_cast; linarith [sqrt_diag_ub]
  unfold radius_meters
  norm_num [hfloor]

/-- C6 counterexample: for the square cell spanning 0.01° of latitude and
longitude centered on the equator, the computed radius (1669 m — the full
diagonal plus the 100 m buffer, truncated) is NOT within ±10% of half the
diagonal (≈ 785 m); it is more than double it. -/
theorem radius_not_half_diagonal :
    ¬(|(radius_meters ⟨-1/200, -1/200, 1/200, 1/200⟩ : ℝ)
        - diagonal_meters ⟨-1/200, -1/200, 1/200, 1/200⟩ / 2|
      ≤ diagonal_meters ⟨-1/200, -1/200, 1/200, 1/200⟩ / 2 / 10) := by
  rw [radius_meters_equator_cell, diagonal_meters_equator_cell]
  rw [abs_le]
  intro hcontra
  have h2 := hcontra.2
  push_cast at h2
  linarith [sqrt_diag_ub]

/-- C6 amended: for that cell the computed radius is within ±10% of the
FULL diagonal length in meters (the code uses the whole diagonal plus a
100 m buffer, not half of it). -/
theorem radius_within_ten_percent_of_diagonal :
    |(radius_meters ⟨-1/200, -1/200, 1/200, 1/200⟩ : ℝ)
        - diagonal_meters ⟨-1/200, -1/200, 1/200, 1/200⟩|
      ≤ diagonal_meters ⟨-1/200, -1/200, 1/200, 1/200⟩ / 10 := by
  rw [radius_meters_equator_cell, diagonal_meters_equator_cell]
  rw [abs_le]
  constructor
  · push_cast; linarith [sqrt_diag_ub]
  · push_cast; linarith [sqrt_diag_lb]

/-! ## Aggregation-map lemmas -/

theorem mapLookup_mapInsert_self (m : List (Json × Json)) (k v : Json) :
    mapLookup (mapInsert m k v) k = some v := by
  unfold mapLookup mapInsert
  cases hfind : m.find? fun kv => decide (kv.1 = k) with
  | none =>
      simp only [hfind, Option.isSome_none, Bool.false_eq_true, if_false]
      rw [List.find?_append, hfind]
      simp [List.find?]
  | some kv0 =>
      simp only [hfind, Option.isSome_some, if_true]
      rw [List.find?_map]
      have hpf : ((fun kv : Json × Json => decide (kv.1 = k)) ∘
          (fun kv : Json × Json => if kv.1 = k then (kv.1, v) else kv))
          = fun kv : Json × Json => decide (kv.1 = k) := by
        funext kv
        by_cases hkv : kv.1 = k <;> simp [hkv]
      rw [hpf, hfind]
      have hk0 : kv0.1 = k := by simpa using List.find?_some hfind
      simp [hk0]

theorem mapLookup_mapInsert_ne (m : List (Json × Json)) (k v k' : Json)
    (h : k' ≠ k) :
    mapLookup (mapInsert m k v) k' = mapLookup m k' := by
  unfold mapLookup mapInsert
  cases hfind : m.find? fun kv => decide (kv.1 = k) with
  | none =>
      simp only [hfind, Option.isSome_none, Bool.false_eq_true, if_false]
      rw [List.find?_append]
      have hsingle : List.find? (fun kv => decide (kv.1 = k')) [(k, v)] = none := by
        simp [List.find?, Ne.symm h]
      rw [hsingle, Option.or_none]
  | some kv0 =>
      simp only [hfind, Option.isSome_some, if_true]
      rw [List.find?_map]
      have hpf : ((fun kv : Json × Json => decide (kv.1 = k')) ∘
          (fun kv : Json × Json => if kv.1 = k then (kv.1, v) else kv))
          = fun kv : Json × Json => decide (kv.1 = k') := by
        funext kv
        by_cases hkv : kv.1 = k <;> simp [hkv]
      rw [hpf]
      cases hfind' : m.find? fun kv => decide (kv.1 = k') with
      | none => simp
      | some kv1 =>
          have hk1 : kv1.1 = k' := by simpa using List.find?_some hfind'
          have hk1k : kv1.1 ≠ k := by rw [hk1]; exact h
          simp [hk1k]

theorem mapInsert_keys_nodup (m : List (Json × Json)) (k v : Json)
    (h : (m.map Prod.fst).Nodup) : ((mapInsert m k v).map Prod.fst).Nodup := by
  unfold mapInsert
  cases hfind : m.find? fun kv => decide (kv.1 = k) with
  | none =>
      simp only [hfind, Option.isSome_none, Bool.false_eq_true, if_false]
      rw [List.map_append, List.nodup_append]
      refine ⟨h, by simp, ?_⟩
      intro a ha hb
      simp only [List.map_cons, List.map_nil, List.mem_singleton] at hb
      subst hb
      rw [List.mem_map] at ha
      obtain ⟨kv, hkv, hfst⟩ := ha
      have hcontra := List.find?_eq_none.mp hfind kv hkv
      rw [hfst] at hcontra
      simp at hcontra
  | some kv0 =>
      simp only [hfind, Option.isSome_some, if_true]
      rw [List.map_map]
      have hpf : (Prod.fst ∘
          (fun kv : Json × Json => if kv.1 = k then (kv.1, v) else kv))
          = Prod.fst := by
        funext kv
        by_cases hkv : kv.1 = k <;> simp [hkv]
      rw [hpf]
      exact h

theorem mapLookup_foldl_mergeStep (k : Json) :
    ∀ (rs : List Json) (m : List (Json × Json)),
    mapLookup (rs.foldl mergeStep m) k
      = ((rs.filter fun r =>
            decide (r.get "id" = some k) && mergeEligible r).getLast?).or
          (mapLookup m k) := by
  intro rs
  induction rs with
  | nil => intro m; simp
  | cons r rs ih =>
      intro m
      rw [List.foldl_cons, ih]
      by_cases hpred : (decide (r.get "id" = some k) && mergeEligible r) = true
      · have hid : r.get "id" = some k :=
          of_decide_eq_true (Bool.and_eq_true .. |>.mp hpred).1
        have hel : mergeEligible r = true := (Bool.and_eq_true .. |>.mp hpred).2
        have hstep : mergeStep m r = mapInsert m k r := by
          unfold mergeStep; rw [hid]; simp [hel]
        rw [hstep,
          @List.filter_cons_of_pos _
            (fun r => decide (r.get "id" = some k) && mergeEligible r) r rs hpred,
          mapLookup_mapInsert_self]
        cases hfil : rs.filter
            (fun r => decide (r.get "id" = some k) && mergeEligible r) with
        | nil => simp
        | cons a l =>
            rw [List.getLast?_cons_cons]
            cases hg : (a :: l).getLast? with
            | none => simp at hg
            | some g => simp [hg]
      · rw [@List.filter_cons_of_neg _
          (fun r => decide (r.get "id" = some k) && mergeEligible r) r rs
          (by simpa using hpred)]
        cases hid : r.get "id" with
        | none =>
            have hstep : mergeStep m r = m := by unfold mergeStep; rw [hid]
            rw [hstep]
        | some kid =>
            by_cases hel : mergeEligible r = true
            · have hne : k ≠ kid := by
                intro he; subst he; apply hpred; simp [hid, hel]
              have hstep : mergeStep m r = mapInsert m kid r := by
                unfold mergeStep; rw [hid]; simp [hel]
              rw [hstep, mapLookup_mapInsert_ne _ _ _ _ hne]
            · have hstep : mergeStep m r = m := by
                unfold mergeStep; rw [hid]; simp [hel]
              rw [hstep]

/-- C8: the aggregation map after the merge loop has pairwise-distinct keys
(exactly one entry per entity ID), and the entry for each ID `k` is exactly
the LAST eligible occurrence (has an `id` key equal to `k` and a truthy
website field) in the concatenation of the cell result lists, in iteration
order — last writer wins. An ID occurring in exactly one list maps to that
unique occurrence (`getLast?` of a singleton filter). -/
theorem merge_last_writer_wins (results_list : List (List Json)) :
    ((merge results_list).map Prod.fst).Nodup
  ∧ ∀ k, mapLookup (merge results_list) k
      = (results_list.flatten.filter fun r =>
          decide (r.get "id" = some k) && mergeEligible r).getLast? := by
  have hme : merge results_list = results_list.flatten.foldl mergeStep [] := by
    unfold merge; rw [List.foldl_flatten]
  constructor
  · rw [hme]
    have hinv : ∀ (rs : List Json) (m : List (Json × Json)),
        (m.map Prod.fst).Nodup →
        ((rs.foldl mergeStep m).map Prod.fst).Nodup := by
      intro rs
      induction rs with
      | nil => intro m h; exact h
      | cons r rs ih =>
          intro m h
          rw [List.foldl_cons]
          apply ih
          unfold mergeStep
          cases r.get "id" with
          | none => exact h
          | some kid =>
              by_cases hel : mergeEligible r = true
              · simp only [hel, if_true]
                exact mapInsert_keys_nodup _ _ _ h
              · simp [hel, h]
    exact hinv _ _ (by simp)
  · intro k
    rw [hme, mapLookup_foldl_mergeStep]
    simp [mapLookup]

/-! ## Detail-dict key lemmas -/

theorem build_details_fields_keys (resp : DetailsResponse) :
    ∀ kv ∈ build_details_fields resp,
      kv.1 = "reviews" ∨ kv.1 = "generativeSummary" ∨ kv.1 = "reviewSummary" := by
  intro kv hkv
  unfold build_details_fields at hkv
  simp only [List.mem_append] at hkv
  rcases hkv with (h1 | h2) | h3
  · split at h1
    · simp only [List.mem_singleton] at h1
      subst h1
      left; rfl
    · cases h1
  · split at h2
    · simp only [List.mem_singleton] at h2
      subst h2
      right; left; rfl
    · cases h2
  · split at h3
    · simp only [List.mem_singleton] at h3
      subst h3
      right; right; rfl
    · cases h3

theorem build_details_eq_some {resp : DetailsResponse}
    {fields : List (String × Json)} (h : build_details resp = some fields) :
    fields = build_details_fields resp ∧ fields ≠ [] := by
  unfold build_details at h
  split at h
  · cases h
  case isFalse hne =>
    injection h with h
    subst h
    exact ⟨rfl, hne⟩

theorem build_details_keys {resp : DetailsResponse}
    {fields : List (String × Json)} (h : build_details resp = some fields) :
    ∀ kv ∈ fields,
      kv.1 = "reviews" ∨ kv.1 = "generativeSummary" ∨ kv.1 = "reviewSummary" := by
  rw [(build_details_eq_some h).1]
  exact build_details_fields_keys resp

theorem build_details_ne_emptyMarker {resp : DetailsResponse}
    {fields : List (String × Json)} (h : build_details resp = some fields) :
    Json.obj fields ≠ emptyMarker := by
  intro he
  unfold emptyMarker at he
  injection he with hf
  have hmem : ("_empty", Json.bool true) ∈ fields := by rw [hf]; simp
  rcases build_details_keys h _ hmem with hk | hk | hk <;> simp at hk

/-! ## Frame lemmas for `dict.update` -/

theorem dictInsert_find_ne (d : List (String × Json)) (k2 : String) (v2 : Json)
    (k : String) (h : k2 ≠ k) :
    ((dictInsert d k2 v2).find? fun kv => kv.1 == k)
      = d.find? fun kv => kv.1 == k := by
  unfold dictInsert
  cases hfind : d.find? fun kv => kv.1 == k2 with
  | none =>
      simp only [hfind, Option.isSome_none, Bool.false_eq_true, if_false]
      rw [List.find?_append]
      have hsingle : List.find? (fun kv => kv.1 == k) [(k2, v2)] = none := by
        simp [List.find?, beq_false_of_ne h]
      rw [hsingle, Option.or_none]
  | some kv0 =>
      simp only [hfind, Option.isSome_some, if_true]
      rw [List.find?_map]
      have hpf : ((fun kv : String × Json => kv.1 == k) ∘
          (fun kv : String × Json => if kv.1 == k2 then (kv.1, v2) else kv))
          = fun kv : String × Json => kv.1 == k := by
        funext kv
        simp only [Function.comp_apply]
        split <;> rfl
      rw [hpf]
      cases hfind' : d.find? fun kv => kv.1 == k with
      | none => simp
      | some kv1 =>
          have hk1 : kv1.1 = k := by simpa using List.find?_some hfind'
          have hne : kv1.1 ≠ k2 := by
            rw [hk1]
            exact fun he => h he.symm
          simp [hne]

theorem dictUpdate_find_not_mem (d2 : List (String × Json)) :
    ∀ (d1 : List (String × Json)) (k : String),
    (∀ kv ∈ d2, kv.1 ≠ k) →
    ((dictUpdate d1 d2).find? fun kv => kv.1 == k)
      = d1.find? fun kv => kv.1 == k := by
  induction d2 with
  | nil => intro d1 k _; rfl
  | cons kv2 d2 ih =>
      intro d1 k hk
      show ((dictUpdate (dictInsert d1 kv2.1 kv2.2) d2).find? fun kv => kv.1 == k)
        = d1.find? fun kv => kv.1 == k
      rw [ih _ k fun kv hkv => hk kv (List.mem_cons_of_mem _ hkv)]
      exact dictInsert_find_ne _ _ _ _ (hk kv2 (List.mem_cons_self _ _))

theorem jsonUpdate_get_frame (r : Json) (fields : List (String × Json))
    (k : String) (hk : ∀ kv ∈ fields, kv.1 ≠ k) :
    (jsonUpdate r fields).get k = r.get k := by
  cases r <;> simp only [jsonUpdate]
  case obj fs =>
    simp only [Json.get]
    rw [dictUpdate_find_not_mem fields fs k hk]

/-! ## Phase-1 rerun lemmas -/

theorem process_cell_cache_hit (provider : GridCell → FetchOutcome)
    (gs : GridStore) (cell : GridCell) (rs : List Json)
    (h : load_grid_cache gs cell = .ok (some rs)) :
    process_cell provider gs cell
      = .ok { results := rs, fromCache := true, usedApi := false,
              store := gs } := by
  unfold process_cell
  rw [h]

theorem process_cell_load_error (provider : GridCell → FetchOutcome)
    (gs : GridStore) (cell : GridCell) (e : UnicodeDecodeError)
    (h : load_grid_cache gs cell = .error e) :
    process_cell provider gs cell = .error e := by
  unfold process_cell
  rw [h]

theorem process_cell_miss (provider : GridCell → FetchOutcome)
    (gs : GridStore) (cell : GridCell)
    (h : load_grid_cache gs cell = .ok none) :
    process_cell provider gs cell
      = .ok { results := search_by_type (provider cell), fromCache := false,
              usedApi := true,
              store := save_grid_cache gs cell
                (search_by_type (provider cell)) } := by
  unfold process_cell
  rw [h]

theorem process_cell_load_store (provider : GridCell → FetchOutcome)
    (gs : GridStore) (cell : GridCell) (out : CellOutcome)
    (h : process_cell provider gs cell = .ok out) :
    load_grid_cache out.store cell = .ok (some out.results) := by
  cases hl : load_grid_cache gs cell with
  | error e =>
      rw [process_cell_load_error provider gs cell e hl] at h
      cases h
  | ok o =>
      cases o with
      | some cached =>
          rw [process_cell_cache_hit provider gs cell cached hl] at h
          injection h with h
          subst h
          exact hl
      | none =>
          rw [process_cell_miss provider gs cell hl] at h
          injection h with h
          subst h
          exact load_grid_cache_save _ _ _

theorem run_phase1_preserves_loaded (provider : GridCell → FetchOutcome) :
    ∀ (cells : List GridCell) (gs : GridStore)
      (r : List (List Json) × ℕ × GridStore) (c : GridCell) (v : List Json),
    run_phase1 provider cells gs = .ok r →
    load_grid_cache gs c = .ok (some v) →
    load_grid_cache r.2.2 c = .ok (some v) := by
  intro cells
  induction cells with
  | nil =>
      intro gs r c v hr hv
      unfold run_phase1 at hr
      injection hr with hr
      subst hr
      exact hv
  | cons cell rest ih =>
      intro gs r c v hr hv
      unfold run_phase1 at hr
      cases hp : process_cell provider gs cell with
      | error e =>
          simp only [hp] at hr
          exact Except.noConfusion hr
      | ok out =>
          simp only [hp] at hr
          cases hrest : run_phase1 provider rest out.store with
          | error e =>
              simp only [hrest] at hr
              exact Except.noConfusion hr
          | ok rr =>
              simp only [hrest] at hr
              injection hr with hr
              subst hr
              refine ih out.store rr c v hrest ?_
              cases hl : load_grid_cache gs cell with
              | error e =>
                  rw [process_cell_load_error provider gs cell e hl] at hp
                  cases hp
              | ok o =>
                  cases o with
                  | some cached =>
                      rw [process_cell_cache_hit provider gs cell cached hl]
                        at hp
                      injection hp with hp
                      subst hp
                      exact hv
                  | none =>
                      rw [process_cell_miss provider gs cell hl] at hp
                      injection hp with hp
                      subst hp
                      by_cases hc : c = cell
                      · subst hc
                        rw [hv] at hl
                        simp at hl
                      · show load_grid_cache
                          (save_grid_cache gs cell
                            (search_by_type (provider cell))) c
                          = .ok (some v)
                        rw [load_grid_cache_save_other _ _ _ _ hc]
                        exact hv

theorem run_phase1_rerun (p1 p2 : GridCell → FetchOutcome) :
    ∀ (cells : List GridCell) (gs : GridStore)
      (r : List (List Json) × ℕ × GridStore),
    run_phase1 p1 cells gs = .ok r →
    run_phase1 p2 cells r.2.2 = .ok (r.1, 0, r.2.2) := by
  intro cells
  induction cells with
  | nil =>
      intro gs r h
      unfold run_phase1 at h
      injection h with h
      subst h
      rfl
  | cons cell rest ih =>
      intro gs r h
      unfold run_phase1 at h
      cases hp : process_cell p1 gs cell with
      | error e =>
          simp only [hp] at h
          exact Except.noConfusion h
      | ok out =>
          simp only [hp] at h
          cases hrest : run_phase1 p1 rest out.store with
          | error e =>
              simp only [hrest] at h
              exact Except.noConfusion h
          | ok rr =>
              simp only [hrest] at h
              injection h with h
              subst h
              have hload : load_grid_cache rr.2.2 cell
                  = .ok (some out.results) :=
                run_phase1_preserves_loaded p1 rest out.store rr cell
                  out.results hrest (process_cell_load_store p1 gs cell out hp)
              show run_phase1 p2 (cell :: rest) rr.2.2
                = .ok (out.results :: rr.1, 0, rr.2.2)
              unfold run_phase1
              rw [process_cell_cache_hit p2 rr.2.2 cell out.results hload]
              simp only []
              rw [ih out.store rr hrest]
              simp

/-! ## Enrichment rerun lemmas -/

theorem enrich_restaurant_cache_hit (dp : Json → Option DetailsResponse)
    (ds : DetailStore) (pid r : Json) (c : List (String × Json))
    (h : load_details_cache ds pid = .ok (some c)) :
    enrich_restaurant dp ds pid r
      = .ok { restaurant := if c ≠ [] then jsonUpdate r c else r,
              fromCache := true, usedApi := false, store := ds } := by
  unfold enrich_restaurant
  rw [h]

theorem enrich_restaurant_load_error (dp : Json → Option DetailsResponse)
    (ds : DetailStore) (pid r : Json) (e : UnicodeDecodeError)
    (h : load_details_cache ds pid = .error e) :
    enrich_restaurant dp ds pid r = .error e := by
  unfold enrich_restaurant
  rw [h]

theorem enrich_restaurant_miss (dp : Json → Option DetailsResponse)
    (ds : DetailStore) (pid r : Json)
    (h : load_details_cache ds pid = .ok none) :
    enrich_restaurant dp ds pid r
      = .ok { restaurant :=
                (match get_place_details dp pid with
                  | some d => if d ≠ [] then jsonUpdate r d else r
                  | none => r),
              fromCache := false, usedApi := true,
              store := save_details_cache ds pid
                (get_place_details dp pid) } := by
  unfold enrich_restaurant
  rw [h]
  simp only []
  cases hdet : get_place_details dp pid with
  | some d => simp [hdet]
  | none => simp [hdet]

theorem enrich_all_preserves_loaded (dp : Json → Option DetailsResponse) :
    ∀ (entries : List (Json × Json)) (ds : DetailStore)
      (r : List (Json × Json) × ℕ × DetailStore) (p : Json)
      (v : List (String × Json)),
    enrich_all dp entries ds = .ok r →
    load_details_cache ds p = .ok (some v) →
    load_details_cache r.2.2 p = .ok (some v) := by
  intro entries
  induction entries with
  | nil =>
      intro ds r p v hr hv
      unfold enrich_all at hr
      injection hr with hr
      subst hr
      exact hv
  | cons e rest ih =>
      obtain ⟨pid, r0⟩ := e
      intro ds r p v hr hv
      unfold enrich_all at hr
      cases hp : enrich_restaurant dp ds pid r0 with
      | error e2 =>
          simp only [hp] at hr
          exact Except.noConfusion hr
      | ok out =>
          simp only [hp] at hr
          cases hrest : enrich_all dp rest out.store with
          | error e2 =>
              simp only [hrest] at hr
              exact Except.noConfusion hr
          | ok rr =>
              simp only [hrest] at hr
              injection hr with hr
              subst hr
              refine ih out.store rr p v hrest ?_
              cases hl : load_details_cache ds pid with
              | error e2 =>
                  rw [enrich_restaurant_load_error dp ds pid r0 e2 hl] at hp
                  cases hp
              | ok o =>
                  cases o with
                  | some cached =>
                      rw [enrich_restaurant_cache_hit dp ds pid r0 cached hl]
                        at hp
                      injection hp with hp
                      subst hp
                      exact hv
                  | none =>
                      rw [enrich_restaurant_miss dp ds pid r0 hl] at hp
                      injection hp with hp
                      subst hp
                      by_cases hpq : p = pid
                      · subst hpq
                        rw [hv] at hl
                        simp at hl
                      · show load_details_cache
                          (save_details_cache ds pid
                            (get_place_details dp pid)) p
                          = .ok (some v)
                        rw [load_details_cache_save_other _ _ _ _ hpq]
                        exact hv

theorem enrich_restaurant_post_loaded (dp : Json → Option DetailsResponse)
    (ds : DetailStore) (pid r : Json) (out : EnrichOutcome)
    (h : enrich_restaurant dp ds pid r = .ok out) :
    ∃ v, load_details_cache out.store pid = .ok (some v) := by
  cases hl : load_details_cache ds pid with
  | error e =>
      rw [enrich_restaurant_load_error dp ds pid r e hl] at h
      cases h
  | ok o =>
      cases o with
      | some cached =>
          rw [enrich_restaurant_cache_hit dp ds pid r cached hl] at h
          injection h with h
          subst h
          exact ⟨cached, hl⟩
      | none =>
          rw [enrich_restaurant_miss dp ds pid r hl] at h
          injection h with h
          subst h
          show ∃ v, load_details_cache
            (save_details_cache ds pid (get_place_details dp pid)) pid
            = .ok (some v)
          cases hdet : get_place_details dp pid with
          | some d =>
              by_cases hm : Json.obj d = emptyMarker
              · exact ⟨[], by simp [load_details_cache, save_details_cache, hm]⟩
              · exact ⟨d, load_details_cache_save_some ds pid d hm⟩
          | none => exact ⟨[], load_details_cache_save_none ds pid⟩

theorem enrich_restaurant_rerun_head (dp1 dp2 : Json → Option DetailsResponse)
    (ds ds' : DetailStore) (pid r : Json) (out : EnrichOutcome)
    (h1 : enrich_restaurant dp1 ds pid r = .ok out)
    (hds' : load_details_cache ds' pid
      = load_details_cache out.store pid) :
    enrich_restaurant dp2 ds' pid r
      = .ok { restaurant := out.restaurant, fromCache := true,
              usedApi := false, store := ds' } := by
  cases hl : load_details_cache ds pid with
  | error e =>
      rw [enrich_restaurant_load_error dp1 ds pid r e hl] at h1
      cases h1
  | ok o =>
      cases o with
      | some cached =>
          rw [enrich_restaurant_cache_hit dp1 ds pid r cached hl] at h1
          injection h1 with h1
          subst h1
          have hds2 : load_details_cache ds' pid = .ok (some cached) := by
            rw [hds']
            exact hl
          rw [enrich_restaurant_cache_hit dp2 ds' pid r cached hds2]
      | none =>
          rw [enrich_restaurant_miss dp1 ds pid r hl] at h1
          injection h1 with h1
          subst h1
          cases hdet : get_place_details dp1 pid with
          | some d =>
              have hresp : ∃ resp, build_details resp = some d := by
                unfold get_place_details at hdet
                cases hq : dp1 pid with
                | none => rw [hq] at hdet; cases hdet
                | some resp => rw [hq] at hdet; exact ⟨resp, hdet⟩
              obtain ⟨resp, hb⟩ := hresp
              have hD : d ≠ [] := (build_details_eq_some hb).2
              have hds2 : load_details_cache ds' pid = .ok (some d) := by
                rw [hds']
                show load_details_cache
                  (save_details_cache ds pid (get_place_details dp1 pid)) pid
                  = .ok (some d)
                rw [hdet]
                exact load_details_cache_save_some ds pid d
                  (build_details_ne_emptyMarker hb)
              rw [enrich_restaurant_cache_hit dp2 ds' pid r d hds2]
          | none =>
              have hds2 : load_details_cache ds' pid = .ok (some []) := by
                rw [hds']
                show load_details_cache
                  (save_details_cache ds pid (get_place_details dp1 pid)) pid
                  = .ok (some [])
                rw [hdet]
                exact load_details_cache_save_none ds pid
              rw [enrich_restaurant_cache_hit dp2 ds' pid r [] hds2]
              simp only [hdet]
              simp

theorem enrich_all_rerun (dp1 dp2 : Json → Option DetailsResponse) :
    ∀ (entries : List (Json × Json)) (ds : DetailStore)
      (r : List (Json × Json) × ℕ × DetailStore),
    enrich_all dp1 entries ds = .ok r →
    enrich_all dp2 entries r.2.2 = .ok (r.1, 0, r.2.2) := by
  intro entries
  induction entries with
  | nil =>
      intro ds r h
      unfold enrich_all at h
      injection h with h
      subst h
      rfl
  | cons e rest ih =>
      obtain ⟨pid, r0⟩ := e
      intro ds r h
      unfold enrich_all at h
      cases hp : enrich_restaurant dp1 ds pid r0 with
      | error e2 =>
          simp only [hp] at h
          exact Except.noConfusion h
      | ok out =>
          simp only [hp] at h
          cases hrest : enrich_all dp1 rest out.store with
          | error e2 =>
              simp only [hrest] at h
              exact Except.noConfusion h
          | ok rr =>
              simp only [hrest] at h
              injection h with h
              subst h
              obtain ⟨v, hv⟩ :=
                enrich_restaurant_post_loaded dp1 ds pid r0 out hp
              have hds1 : load_details_cache rr.2.2 pid = .ok (some v) :=
                enrich_all_preserves_loaded dp1 rest out.store rr pid v
                  hrest hv
              have hhead := enrich_restaurant_rerun_head dp1 dp2 ds rr.2.2
                pid r0 out hp (by rw [hds1, hv])
              show enrich_all dp2 ((pid, r0) :: rest) rr.2.2
                = .ok ((pid, out.restaurant) :: rr.1, 0, rr.2.2)
              unfold enrich_all
              rw [hhead]
              simp only []
              rw [ih out.store rr hrest]
              simp

theorem pipeline_rerun (p1 p2 : GridCell → FetchOutcome)
    (d1 d2 : Json → Option DetailsResponse) (cells : List GridCell)
    (gs : GridStore) (ds : DetailStore)
    (x : List (Json × Json) × (ℕ × ℕ) × GridStore × DetailStore)
    (h : pipeline p1 d1 cells gs ds = .ok x) :
    pipeline p2 d2 cells x.2.2.1 x.2.2.2
      = .ok (x.1, (0, 0), x.2.2.1, x.2.2.2) := by
  unfold pipeline at h ⊢
  cases h1 : run_phase1 p1 cells gs with
  | error e =>
      simp only [h1] at h
      exact Except.noConfusion h
  | ok r1 =>
      simp only [h1] at h
      cases h2 : enrich_all d1 (merge r1.1) ds with
      | error e =>
          simp only [h2] at h
          exact Except.noConfusion h
      | ok r2 =>
          simp only [h2] at h
          injection h with h
          subst h
          simp only []
          rw [run_phase1_rerun p1 p2 cells gs r1 h1]
          simp only []
          rw [enrich_all_rerun d1 d2 (merge r1.1) ds r2 h2]

/-- C10: enrichment touches only the detail keys. Given that the
details-cache entry for the entity's ID (if one exists) was produced by
`save_details_cache` from a `get_place_details_async` result, every key of
the entity's record other than `reviews`, `generativeSummary` and
`reviewSummary` — in particular `id`, `location` and `websiteUri` — reads
the same before and after `enrich_restaurant_async`. -/
theorem enrich_modifies_only_detail_fields
    (dprovider : Json → Option DetailsResponse) (ds : DetailStore)
    (pid : Json) (r : Json) (k : String)
    (hk : k ≠ "reviews" ∧ k ≠ "generativeSummary" ∧ k ≠ "reviewSummary")
    (hcache : ds pid = none
      ∨ ∃ (resp : DetailsResponse) (s0 : DetailStore),
          ds pid = save_details_cache s0 pid (build_details resp) pid) :
    ∃ out, enrich_restaurant dprovider ds pid r = .ok out
      ∧ out.restaurant.get k = r.get k := by
  have hkeys : ∀ (resp : DetailsResponse) (fields : List (String × Json)),
      build_details resp = some fields → ∀ kv ∈ fields, kv.1 ≠ k := by
    intro resp fields hb kv hkv
    rcases build_details_keys hb kv hkv with h | h | h <;> rw [h]
    · exact Ne.symm hk.1
    · exact Ne.symm hk.2.1
    · exact Ne.symm hk.2.2
  rcases hcache with hnone | ⟨resp, s0, hds⟩
  · have hload : load_details_cache ds pid = .ok none := by
      unfold load_details_cache; rw [hnone]
    refine ⟨_, enrich_restaurant_miss dprovider ds pid r hload, ?_⟩
    simp only []
    cases hdet : get_place_details dprovider pid with
    | none => rfl
    | some d =>
        by_cases hd : d ≠ []
        · simp only [if_pos hd]
          unfold get_place_details at hdet
          cases hp : dprovider pid with
          | none => rw [hp] at hdet; cases hdet
          | some resp2 =>
              rw [hp] at hdet
              exact jsonUpdate_get_frame r d k (hkeys resp2 d hdet)
        · simp [hd]
  · cases hb : build_details resp with
    | none =>
        have hload : load_details_cache ds pid = .ok (some []) := by
          unfold load_details_cache
          rw [hds]
          unfold save_details_cache
          simp [hb]
        refine ⟨_, enrich_restaurant_cache_hit dprovider ds pid r [] hload, ?_⟩
        simp
    | some fields =>
        have hload : load_details_cache ds pid = .ok (some fields) := by
          unfold load_details_cache
          rw [hds]
          unfold save_details_cache
          simp only [if_pos rfl, hb, eq_self_iff_true, if_true]
          rw [if_neg (build_details_ne_emptyMarker hb)]
        refine ⟨_, enrich_restaurant_cache_hit dprovider ds pid r fields hload,
          ?_⟩
        have hf : fields ≠ [] := (build_details_eq_some hb).2
        simp only [if_pos hf]
        exact jsonUpdate_get_frame r fields k (hkeys resp fields hb)

/-- Witness for C10 at concrete inputs: an empty details cache, a provider
with no details, and the key `id`. -/
theorem enrich_modifies_only_detail_fields_witness :
    ("id" ≠ "reviews" ∧ "id" ≠ "generativeSummary" ∧ "id" ≠ "reviewSummary")
  ∧ ∃ out, enrich_restaurant (fun _ => none) (fun _ => none) (.str "p")
        (.obj [("id", .str "p")]) = .ok out
      ∧ out.restaurant.get "id" = (Json.obj [("id", .str "p")]).get "id" :=
  ⟨by decide,
   enrich_modifies_only_detail_fields (fun _ => none) (fun _ => none)
     (.str "p") (.obj [("id", .str "p")]) "id" (by decide) (Or.inl rfl)⟩

/-- C3: a well-formed cache record short-circuits the network. A grid-cache
hit makes `process_cell_async` return the cached results with
`used_api = false` and an unchanged store; a details-cache hit makes
`enrich_restaurant_async` use the cached details with `used_api = false`
and an unchanged store; consequently, rerunning the full pipeline over the
stores left by a first (completed) run — with arbitrary (never-consulted)
providers — issues zero grid API calls and zero detail API calls and
produces the identical final entity map and identical stores. -/
theorem cache_hit_no_api_and_idempotent_rerun :
    (∀ (provider : GridCell → FetchOutcome) (gs : GridStore) (cell : GridCell)
        (rs : List Json),
      load_grid_cache gs cell = .ok (some rs) →
      process_cell provider gs cell
        = .ok { results := rs, fromCache := true, usedApi := false,
                store := gs })
  ∧ (∀ (dp : Json → Option DetailsResponse) (ds : DetailStore) (pid r : Json)
        (c : List (String × Json)),
      load_details_cache ds pid = .ok (some c) →
      enrich_restaurant dp ds pid r
        = .ok { restaurant := if c ≠ [] then jsonUpdate r c else r,
                fromCache := true, usedApi := false, store := ds })
  ∧ (∀ (p1 p2 : GridCell → FetchOutcome)
        (d1 d2 : Json → Option DetailsResponse) (cells : List GridCell)
        (gs : GridStore) (ds : DetailStore)
        (x : List (Json × Json) × (ℕ × ℕ) × GridStore × DetailStore),
      pipeline p1 d1 cells gs ds = .ok x →
      pipeline p2 d2 cells x.2.2.1 x.2.2.2
        = .ok (x.1, (0, 0), x.2.2.1, x.2.2.2)) :=
  ⟨process_cell_cache_hit, enrich_restaurant_cache_hit, pipeline_rerun⟩

/-- Witness for C3: concrete Present and Empty cache hits, and a concrete
one-cell pipeline rerun with different (never-consulted) second providers. -/
theorem cache_hit_no_api_and_idempotent_rerun_witness :
    process_cell (fun _ => .ok [])
        (save_grid_cache (fun _ => none) ⟨0, 0, 1, 1⟩ [Json.str "a"])
        ⟨0, 0, 1, 1⟩
      = .ok { results := [Json.str "a"], fromCache := true, usedApi := false,
              store := save_grid_cache (fun _ => none) ⟨0, 0, 1, 1⟩
                [Json.str "a"] }
  ∧ enrich_restaurant (fun _ => none)
        (save_details_cache (fun _ => none) (.str "p") none) (.str "p")
        (.obj [])
      = .ok { restaurant := .obj [], fromCache := true, usedApi := false,
              store := save_details_cache (fun _ => none) (.str "p") none }
  ∧ pipeline (fun _ => .rateLimited []) (fun _ => none) [⟨0, 0, 1, 1⟩]
        (save_grid_cache (fun _ => none) ⟨0, 0, 1, 1⟩ []) (fun _ => none)
      = .ok ([], (0, 0), save_grid_cache (fun _ => none) ⟨0, 0, 1, 1⟩ [],
             fun _ => none) :=
  ⟨cache_hit_no_api_and_idempotent_rerun.1 _ _ _ _
     (load_grid_cache_save _ _ _),
   by
    have h := cache_hit_no_api_and_idempotent_rerun.2.1 (fun _ => none)
      (save_details_cache (fun _ => none) (.str "p") none) (.str "p")
      (.obj []) [] (load_details_cache_save_none _ _)
    simpa using h,
   cache_hit_no_api_and_idempotent_rerun.2.2 (fun _ => .ok [])
     (fun _ => .rateLimited []) (fun _ => none) (fun _ => none)
     [⟨0, 0, 1, 1⟩] (fun _ => none) (fun _ => none)
     ([], (1, 0), save_grid_cache (fun _ => none) ⟨0, 0, 1, 1⟩ [],
      fun _ => none) rfl⟩
